import Mathlib

set_option autoImplicit false

/-!
Shallow embedding of the realtime-audio chat front-ends of this repository.

Two pieces of code carry the behaviour the specification describes:

* the React chat interface (src/unnamed/part_001, duplicated in
  src/samples/middle-tier/generic-frontend/src/components/markdown.tsx):
  a session message reducer `handleWSMessage` over a JS `Map` of messages,
  a `receiveLoop`, and a `disconnect` teardown;
* the plain web sample (src/javascript/samples/web/src/main.ts):
  the `handleRealtimeMessages` loop, the `sawFunctionCall` flag with
  `handleFunctionCall` / `handleResponseDone`, and the microphone byte
  buffering `combineArray` / `processAudioRecordingBuffer` with base64
  framing (`btoa`).

JS maps are modelled as insertion-ordered association lists, JS string
truthiness (`undefined` and `""` are falsy) and the `x!` non-null assertion
are modelled explicitly, thrown JS errors become `Except.error`, and
external nondeterminism (`Math.random`, `JSON.parse` success of a network
string, awaited tool results) becomes explicit function arguments.
-/

namespace AoaiRealtime

/-- `Message` record of the chat interface (part_001 lines 18-22).  The
source field `type` (`"user" | "assistant" | "status"`) is renamed
`msgType` because `type` is a Lean keyword. -/
structure Message where
  id : String
  msgType : String
  content : String
deriving Repr, DecidableEq

/-- `WSMessage` record of the chat interface (part_001 lines 26-33).
Optional TS fields become `Option`; `msgType` renames the source field
`type`, kept as a `String` because at runtime `JSON.parse` can deliver any
tag. -/
structure WSMessage where
  id : Option String
  msgType : String
  delta : Option String
  text : Option String
  action : Option String
  greeting : Option String
deriving Repr, DecidableEq

/-- JS truthiness of an optional string: `undefined` and `""` are falsy
(the source guards `if (message.id)` and `message.greeting`). -/
def strTruthy : Option String → Bool
  | none => false
  | some s => !(s == "")

/-- The source's `x!` non-null assertion followed by use in a string
position: JS coerces `undefined` to the string `"undefined"` when
concatenated, which is the only way the reducer consumes these fields. -/
def jsStr : Option String → String
  | none => "undefined"
  | some s => s

/-- Insertion-ordered map, the model of the JS `Map` held in
`messageMap`: `set` on a present key updates the value in place, on an
absent key appends at the end; iteration order is insertion order. -/
def mapGet : List (String × Message) → String → Option Message
  | [], _ => none
  | p :: m, k => if p.1 == k then some p.2 else mapGet m k

/-- `Map.set`: update in place when the key is present, append otherwise. -/
def mapSet (m : List (String × Message)) (k : String) (v : Message) :
    List (String × Message) :=
  if m.any (fun p => p.1 == k) then
    m.map (fun p => if p.1 == k then (k, v) else p)
  else m ++ [(k, v)]

/-- Mutation of the `content` field of the map entry aliased by a ref
(`currentUserMessage.current.content = ...`): in JS this writes through
the object reference, visible in the map exactly when the object is still
the map entry for its id; if the map was cleared meanwhile the write hits
a detached object and the map is unchanged. -/
def mapSetContent (m : List (String × Message)) (k : String) (c : String) :
    List (String × Message) :=
  m.map (fun p => if p.1 == k then (p.1, ⟨p.2.id, p.2.msgType, c⟩) else p)

/-- Modelled from the spec: the Audio Playback component (`Player` of
`@/lib/audio`, whose implementation is not under src/; only its callers
are).  Spec section 4.3: `play(pcmChunk)` enqueues a chunk, `clear()`
immediately discards all queued chunks.  We model the queue of
not-yet-played PCM chunks. -/
structure Player where
  queue : List (List Int)
deriving Repr, DecidableEq

/-- Modelled from the spec: `Player.clear` discards every queued chunk. -/
def Player.clear (_p : Player) : Player := ⟨[]⟩

/-- Modelled from the spec: `Player.play` enqueues a chunk at the end. -/
def Player.play (p : Player) (chunk : List Int) : Player := ⟨p.queue ++ [chunk]⟩

/-- The state touched by the chat-interface reducer: the message map, the
rendered `messages` array (refreshed by `setMessages(Array.from(map.values()))`),
the two message refs (tracked by id, see `mapSetContent` for the aliasing),
and the audio player (absent until `initAudioPlayer` ran). -/
structure ChatState where
  messageMap : List (String × Message)
  messagesView : List Message
  currentUserMessage : Option String
  currentConnectingMessage : Option String
  player : Option Player
deriving Repr, DecidableEq

/-- `Array.from(messageMap.values())`. -/
def viewOf (m : List (String × Message)) : List Message := m.map Prod.snd

/-- The session message reducer `handleWSMessage` (part_001 lines 138-179;
identical code in markdown.tsx lines 255-296).  `rand` is the value
`Math.random()` returns inside the `speech_started` branch, passed in as an
argument because it is environment nondeterminism (already rendered as a
string, as JS string concatenation would).  A thrown JS `TypeError`
(writing `.content` on an `undefined` ref) is `Except.error`. -/
def handleWSMessage (rand : String) (msg : WSMessage) (s : ChatState) :
    Except String ChatState :=
  match msg.msgType with
  | "transcription" =>
    if strTruthy msg.id then
      match s.currentUserMessage with
      | none => .error "TypeError: cannot set content of undefined"
      | some cid =>
        let m := mapSetContent s.messageMap cid (jsStr msg.text)
        .ok { s with messageMap := m, messagesView := viewOf m }
    else .ok s
  | "text_delta" =>
    if strTruthy msg.id then
      let i := jsStr msg.id
      let m :=
        match mapGet s.messageMap i with
        | some existing =>
          mapSet s.messageMap i
            ⟨existing.id, existing.msgType, existing.content ++ jsStr msg.delta⟩
        | none => mapSet s.messageMap i ⟨i, "assistant", jsStr msg.delta⟩
      .ok { s with messageMap := m, messagesView := viewOf m }
    else .ok s
  | "control" =>
    if msg.action == some "connected" && strTruthy msg.greeting then
      match s.currentConnectingMessage with
      | none => .error "TypeError: cannot set content of undefined"
      | some cid =>
        let m := mapSetContent s.messageMap cid (jsStr msg.greeting)
        .ok { s with messageMap := m, messagesView := viewOf m }
    else if msg.action == some "speech_started" then
      let contrivedId := "userMessage" ++ rand
      let m := mapSet s.messageMap contrivedId ⟨contrivedId, "user", "..."⟩
      .ok { s with
              player := s.player.map Player.clear,
              currentUserMessage := some contrivedId,
              messageMap := m,
              messagesView := viewOf m }
    else .ok s
  | _ => .ok s

/-- The text-frame part of `receiveLoop` iterated over a list of already
JSON-parsed frames, in arrival order (part_001 lines 181-193): each frame
is fed to `handleWSMessage`; a thrown error propagates out of the loop. -/
def processFrames (rand : String) (msgs : List WSMessage) (s : ChatState) :
    Except String ChatState :=
  match msgs with
  | [] => .ok s
  | m :: rest => do
    let s1 ← handleWSMessage rand m s
    processFrames rand rest s1

/-! ## Session controller teardown (part_001 `disconnect`, lines 243-254) -/

/-- Modelled from the spec: the Audio Capture component (`Recorder` of
`@/lib/audio`, whose implementation is not under src/).  Spec section 4.2:
`start` begins capture, `stop` ceases capture and releases the device; we
track only whether capture is running. -/
structure Recorder where
  running : Bool
deriving Repr, DecidableEq

/-- The session-controller state `disconnect` touches: the connection
flags, the recorder and player refs, the transport client handle
(`webSocketClient.current`, `Option Unit` since only presence matters;
spec section 4.1 makes `close()` idempotent and safe), and the reducer
state. -/
structure SessionState where
  isConnected : Bool
  isRecording : Bool
  recorder : Option Recorder
  ws : Option Unit
  chat : ChatState
deriving Repr, DecidableEq

/-- `handleAudioRecord` (part_001 lines 47-71), restricted to the state it
returns: the recorder ref and the new recording flag.  First branch
(start): requires not recording and a transport client; creates the
recorder if absent and starts it.  Second branch (stop): requires a
recorder; stops it and nulls the ref.  Otherwise the flag is returned
unchanged. -/
def handleAudioRecord (ws : Option Unit) (recorder : Option Recorder)
    (isRecording : Bool) : Option Recorder × Bool :=
  if !isRecording && ws.isSome then
    (some ⟨true⟩, true)
  else
    match recorder with
    | some _ => (none, false)
    | none => (recorder, isRecording)

/-- `disconnect` (part_001 lines 243-254): clears the connected flag,
stops recording via `toggleRecording` when the recording flag is set,
stops any remaining recorder, clears the player queue, closes and nulls
the transport client, clears the message map and the rendered list.
`close()`/`clear()`/`stop()` are safe per spec sections 4.1-4.3, so the
function is total (no error). -/
def disconnect (s : SessionState) : SessionState :=
  let s1 : SessionState := { s with isConnected := false }
  let s2 : SessionState :=
    if s1.isRecording then
      let rb := handleAudioRecord s1.ws s1.recorder s1.isRecording
      { s1 with recorder := rb.1, isRecording := rb.2 }
    else s1
  let s3 : SessionState :=
    { s2 with recorder := s2.recorder.map (fun _ => ⟨false⟩) }
  let s4 : SessionState :=
    { s3 with chat := { s3.chat with player := s3.chat.player.map Player.clear } }
  { s4 with
      ws := none,
      chat := { s4.chat with messageMap := [], messagesView := [] } }

/-! ## Base64 (`btoa`/`atob` as used by main.ts)

`processAudioRecordingBuffer` turns 4800 captured bytes into a JS binary
string via `String.fromCharCode` and encodes it with `btoa`;
`response.audio.delta` payloads are decoded with `atob`.  We model binary
strings as byte lists and implement the standard base64 alphabet. -/

/-- The base64 alphabet used by `btoa`/`atob`. -/
def base64Table : List Char :=
  "ABCDEFGHIJKLMNOPQRSTUVWXYZabcdefghijklmnopqrstuvwxyz0123456789+/".toList

/-- Character for a 6-bit group. -/
def b64char (n : Nat) : Char := base64Table.getD n '='

/-- 6-bit value of an alphabet character. -/
def b64val (c : Char) : Nat := base64Table.indexOf c

/-- `btoa` on a binary string (byte list): 3 bytes become 4 alphabet
characters, with `=` padding for a trailing group of 1 or 2 bytes. -/
def btoa : List Nat → List Char
  | [] => []
  | [a] => [b64char (a / 4), b64char (a % 4 * 16), '=', '=']
  | [a, b] => [b64char (a / 4), b64char (a % 4 * 16 + b / 16), b64char (b % 16 * 4), '=']
  | a :: b :: c :: rest =>
    b64char (a / 4) :: b64char (a % 4 * 16 + b / 16) ::
      b64char (b % 16 * 4 + c / 64) :: b64char (c % 64) :: btoa rest

/-- `atob`: groups of 4 alphabet characters back to bytes, honouring `=`
padding.  Total where JS would throw on malformed input; the claims only
evaluate it on `btoa` output. -/
def atob : List Char → List Nat
  | a :: b :: c :: d :: rest =>
    let x := b64val a
    let y := b64val b
    if c = '=' then [x * 4 + y / 16]
    else
      let z := b64val c
      if d = '=' then [x * 4 + y / 16, y % 16 * 16 + z / 4]
      else (x * 4 + y / 16) :: (y % 16 * 16 + z / 4) :: (z % 4 * 64 + b64val d) :: atob rest
  | _ => []

/-! ## Microphone buffering (main.ts lines 214-240) -/

/-- Outbound frames `main.ts` sends through `realtimeStreaming.send`. -/
inductive RtOut where
  | sessionUpdate : RtOut
  | inputAudioAppend (audio : List Char) : RtOut
  | conversationItemCreate (callId : String) (output : String) : RtOut
  | responseCreate : RtOut
deriving Repr, DecidableEq

/-- The module-level capture state of main.ts: the accumulation `buffer`
and the frames sent so far. -/
structure AudioState where
  buffer : List Nat
  sent : List RtOut
deriving Repr, DecidableEq

/-- `processAudioRecordingBuffer` (main.ts lines 224-240) for one capture
callback: `combineArray` appends the new data to the module buffer; if at
least 4800 bytes accumulated, the first 4800 are sliced off, base64
encoded, and sent as an `input_audio_buffer.append` frame when
`recordingActive` is set (the slice is consumed either way). -/
def processAudioRecordingBuffer (recordingActive : Bool) (s : AudioState)
    (data : List Nat) : AudioState :=
  let buf := s.buffer ++ data
  if 4800 ≤ buf.length then
    let toSend := buf.take 4800
    let rest := buf.drop 4800
    if recordingActive then
      ⟨rest, s.sent ++ [RtOut.inputAudioAppend (btoa toSend)]⟩
    else ⟨rest, s.sent⟩
  else ⟨buf, s.sent⟩

/-- Decoded audio payload of a sent frame (used to state what bytes were
actually transmitted). -/
def decodedAudio : RtOut → List Nat
  | RtOut.inputAudioAppend payload => atob payload
  | _ => []

/-! ## `handleRealtimeMessages` (main.ts lines 162-208) -/

/-- Little-endian signed reinterpretation `new Int16Array(bytes.buffer)`
of a decoded audio payload (main.ts lines 176-178). -/
def bytesToInt16 : List Nat → List Int
  | a :: b :: rest =>
    (let v := a + 256 * b
     if v < 32768 then (v : Int) else (v : Int) - 65536) :: bytesToInt16 rest
  | _ => []

/-- An item carried by a `response.output_item.done` frame.  `arguments`
is the raw JSON string of the call; whether `JSON.parse` accepts it is
environment input (see `handleFunctionCall`). -/
structure RtItem where
  itemType : String
  callId : String
  arguments : String
deriving Repr, DecidableEq

/-- An inbound realtime frame for main.ts, discriminated by `rtType`
(the source field `type`).  Fields default to the TS-declared shapes;
`item` is present on `response.output_item.done` frames. -/
structure RtMessage where
  rtType : String
  delta : String
  transcript : String
  item : Option RtItem
deriving Repr, DecidableEq

/-- The `InputState` enum of main.ts (lines 286-290). -/
inductive InputState where
  | Working : InputState
  | ReadyToStart : InputState
  | ReadyToStop : InputState
deriving Repr, DecidableEq

/-- One child of `formReceivedTextContainer`: `tag` is `"p"` or `"hr"`,
`text` its `textContent` (an `hr` starts empty but `textContent` is still
assignable, as `appendToTextBlock` would do when an `hr` is last). -/
structure DomChild where
  tag : String
  text : String
deriving Repr, DecidableEq

/-- `textContent` update of the child at index `i`. -/
def domModify (dom : List DomChild) (i : Nat) (f : String → String) :
    List DomChild :=
  match dom, i with
  | [], _ => []
  | d :: rest, 0 => ⟨d.tag, f d.text⟩ :: rest
  | d :: rest, n + 1 => d :: domModify rest n f

/-- `makeNewTextBlock` (main.ts lines 323-327): append a fresh `p`. -/
def makeNewTextBlock (dom : List DomChild) (text : String) : List DomChild :=
  dom ++ [⟨"p", text⟩]

/-- `appendToTextBlock` (main.ts lines 329-335): create a block when the
container is empty (the `children` collection is live, so the index
`length - 1` then hits the new block), and extend the last child's text. -/
def appendToTextBlock (dom : List DomChild) (text : String) : List DomChild :=
  let dom1 := if dom.length == 0 then makeNewTextBlock dom "" else dom
  domModify dom1 (dom1.length - 1) (fun t => t ++ text)

/-- The main.ts session state the message loop touches: the
`sawFunctionCall` flag, the frames sent so far, the received-text
container, the `latestInputSpeechBlock` ref (index into `dom`, absent
until the first `speech_started`), the playback queue (spec-modelled
`Player`, see above) and the form `InputState`. -/
structure RtState where
  sawFunctionCall : Bool
  sent : List RtOut
  dom : List DomChild
  latestInputSpeech : Option Nat
  player : Player
  inputState : InputState
deriving Repr, DecidableEq

/-- `handleFunctionCall` (main.ts lines 120-160).  For a `function_call`
item the flag is set first; then the arguments are parsed — `argsOk`
is the outcome of `JSON.parse(item.arguments)`, environment input since
JSON parsing of arbitrary strings is not re-implemented here — and on
success the tool is awaited (its serialized result is the environment
input `toolResult`; `getCompanyInfo` catches its own failures) and a
`conversation.item.create` frame with a `function_call_output` item is
sent.  On parse failure the function returns early with the flag still
set. -/
def handleFunctionCall (argsOk : Bool) (toolResult : String) (item : RtItem)
    (s : RtState) : RtState :=
  if item.itemType == "function_call" then
    let s1 : RtState := { s with sawFunctionCall := true }
    if argsOk then
      { s1 with sent := s1.sent ++ [RtOut.conversationItemCreate item.callId toolResult] }
    else s1
  else s

/-- `handleResponseDone` (main.ts lines 384-400): if the pending
function-call flag is set, clear it and send exactly one
`response.create`; otherwise do nothing (only logging). -/
def handleResponseDone (s : RtState) : RtState :=
  if s.sawFunctionCall then
    { s with sawFunctionCall := false, sent := s.sent ++ [RtOut.responseCreate] }
  else s

/-- One iteration of the `handleRealtimeMessages` loop body (main.ts
lines 162-208), dispatching on the frame's type tag; unknown tags only
hit the `default` branch, which merely stringifies the frame for the
console.  `argsOk`/`toolResult` are threaded to `handleFunctionCall`.
A frame of type `response.output_item.done` without an item would make
`item.type` throw (`Except.error`), as would a transcription-completed
frame before any `speech_started` set `latestInputSpeechBlock`. -/
def handleRealtimeStep (argsOk : Bool) (toolResult : String) (m : RtMessage)
    (s : RtState) : Except String RtState :=
  match m.rtType with
  | "session.created" =>
    .ok { s with
            inputState := InputState.ReadyToStop,
            dom := makeNewTextBlock (makeNewTextBlock s.dom "<< Session Started >>") "" }
  | "response.audio_transcript.delta" =>
    .ok { s with dom := appendToTextBlock s.dom m.delta }
  | "response.audio.delta" =>
    .ok { s with player := s.player.play (bytesToInt16 (atob m.delta.toList)) }
  | "input_audio_buffer.speech_started" =>
    let dom1 := makeNewTextBlock s.dom "<< Speech Started >>"
    .ok { s with
            dom := makeNewTextBlock dom1 "",
            latestInputSpeech := some (dom1.length - 1),
            player := s.player.clear }
  | "conversation.item.input_audio_transcription.completed" =>
    match s.latestInputSpeech with
    | none => .error "TypeError: cannot read textContent of undefined"
    | some i =>
      .ok { s with dom := domModify s.dom i (fun t => t ++ (" User: " ++ m.transcript)) }
  | "response.done" =>
    let s1 := handleResponseDone s
    .ok { s1 with dom := s1.dom ++ [⟨"hr", ""⟩] }
  | "response.output_item.done" =>
    match m.item with
    | none => .error "TypeError: cannot read type of undefined"
    | some item => .ok (handleFunctionCall argsOk toolResult item s)
  | _ => .ok s

/-! ## Frame and state abbreviations used in the statements -/

/-- A `text_delta` frame as the middle-tier server sends it. -/
def deltaFrame (i d : String) : WSMessage :=
  ⟨some i, "text_delta", some d, none, none, none⟩

/-- A `transcription` frame. -/
def transcriptionFrame (i t : String) : WSMessage :=
  ⟨some i, "transcription", none, some t, none, none⟩

/-- A `control`/`text_done` frame (the local protocol's turn-done mark). -/
def textDoneFrame : WSMessage :=
  ⟨none, "control", none, none, some "text_done", none⟩

/-- A `control`/`speech_started` frame. -/
def speechStartedFrame : WSMessage :=
  ⟨none, "control", none, none, some "speech_started", none⟩

/-- The reducer state at mount: empty map, no refs, player not yet
initialized. -/
def emptyChat : ChatState := ⟨[], [], none, none, none⟩

/-! ## Map lemmas shared by the claim proofs -/

theorem mapGet_update_self (k : String) (v : Message) :
    ∀ m : List (String × Message), m.any (fun p => p.1 == k) = true →
      mapGet (m.map (fun p => if p.1 == k then (k, v) else p)) k = some v
  | [], h => by simp at h
  | p :: m, h => by
    by_cases hp : p.1 = k
    · simp [mapGet, hp]
    · have hm : m.any (fun p => p.1 == k) = true := by
        simpa [List.any_cons, hp] using h
      simpa [mapGet, hp] using mapGet_update_self k v m hm

theorem mapGet_update_ne (k k' : String) (v : Message) (hne : k' ≠ k) :
    ∀ m : List (String × Message),
      mapGet (m.map (fun p => if p.1 == k then (k, v) else p)) k' = mapGet m k'
  | [] => rfl
  | p :: m => by
    have ih := mapGet_update_ne k k' v hne m
    by_cases hp : p.1 = k
    · simp [mapGet, hp, Ne.symm hne]
      simpa using ih
    · by_cases hq : p.1 = k'
      · have hk : ¬(k' = k) := by rw [← hq]; exact hp
        simp [mapGet, hp, hq, hk]
      · simp [mapGet, hp, hq]
        simpa using ih

theorem mapGet_append_single (k : String) (v : Message) :
    ∀ m : List (String × Message), m.any (fun p => p.1 == k) = false →
      mapGet (m ++ [(k, v)]) k = some v
  | [], _ => by simp [mapGet]
  | p :: m, h => by
    have hp : ¬(p.1 = k) := by
      intro hp
      simp [List.any_cons, hp] at h
    have hm : m.any (fun p => p.1 == k) = false := by
      simpa [List.any_cons, hp] using h
    simpa [mapGet, hp] using mapGet_append_single k v m hm

theorem mapGet_append_single_ne (k k' : String) (v : Message) (hne : k' ≠ k) :
    ∀ m : List (String × Message), mapGet (m ++ [(k, v)]) k' = mapGet m k'
  | [] => by simp [mapGet, Ne.symm hne]
  | p :: m => by
    by_cases hp : p.1 = k'
    · simp [mapGet, hp]
    · simpa [mapGet, hp] using mapGet_append_single_ne k k' v hne m

theorem mapGet_mapSet_self (m : List (String × Message)) (k : String) (v : Message) :
    mapGet (mapSet m k v) k = some v := by
  unfold mapSet
  cases h : m.any (fun p => p.1 == k) with
  | true => simpa [h] using mapGet_update_self k v m h
  | false => simpa [h] using mapGet_append_single k v m h

theorem mapGet_mapSet_ne (m : List (String × Message)) (k k' : String) (v : Message)
    (hne : k' ≠ k) : mapGet (mapSet m k v) k' = mapGet m k' := by
  unfold mapSet
  cases h : m.any (fun p => p.1 == k) with
  | true => simpa [h] using mapGet_update_ne k k' v hne m
  | false => simpa [h] using mapGet_append_single_ne k k' v hne m

theorem mapSetContent_cons (p : String × Message) (m : List (String × Message))
    (k c : String) :
    mapSetContent (p :: m) k c =
      (if p.1 == k then (p.1, ⟨p.2.id, p.2.msgType, c⟩) else p) :: mapSetContent m k c :=
  rfl

theorem mapGet_mapSetContent_ne (k k' c : String) (hne : k' ≠ k) :
    ∀ m : List (String × Message), mapGet (mapSetContent m k c) k' = mapGet m k'
  | [] => rfl
  | p :: m => by
    have ih := mapGet_mapSetContent_ne k k' c hne m
    rw [mapSetContent_cons]
    by_cases hp : p.1 = k
    · simp [mapGet, hp, Ne.symm hne, ih]
    · by_cases hq : p.1 = k'
      · have hk : ¬(k' = k) := by rw [← hq]; exact hp
        simp [mapGet, hp, hq, hk]
      · simp [mapGet, hp, hq, ih]

theorem mapGet_mapSetContent_isSome (k c k0 : String) :
    ∀ m : List (String × Message), (mapGet m k0).isSome →
      (mapGet (mapSetContent m k c) k0).isSome
  | [], h => by simp [mapGet] at h
  | p :: m, h => by
    rw [mapSetContent_cons]
    by_cases h0 : p.1 = k0
    · by_cases hp : p.1 = k
      · have hk : k = k0 := by rw [← hp]; exact h0
        simp [mapGet, hp, h0, hk]
      · have hk : ¬(k0 = k) := by rw [← h0]; exact hp
        simp [mapGet, hp, h0, hk]
    · have ih := mapGet_mapSetContent_isSome k c k0 m (by simpa [mapGet, h0] using h)
      by_cases hp : p.1 = k
      · have hk : ¬(k = k0) := by rw [← hp]; exact h0
        simpa [mapGet, hp, h0, hk] using ih
      · simpa [mapGet, hp, h0] using ih

theorem mapGet_mapSet_isSome (m : List (String × Message)) (k : String) (v : Message)
    (k0 : String) (h : (mapGet m k0).isSome) : (mapGet (mapSet m k v) k0).isSome := by
  by_cases h0 : k0 = k
  · simp [h0, mapGet_mapSet_self]
  · simpa [mapGet_mapSet_ne m k k0 v h0] using h

theorem any_eq_false_of_mapGet_none (k : String) :
    ∀ m : List (String × Message), mapGet m k = none →
      m.any (fun p => p.1 == k) = false
  | [], _ => rfl
  | p :: m, h => by
    by_cases hp : p.1 = k
    · simp [mapGet, hp] at h
    · have hm := any_eq_false_of_mapGet_none k m (by simpa [mapGet, hp] using h)
      simp [hp, hm]

/-! ## Behaviour of single reducer steps -/

theorem handleWSMessage_unknown (rand : String) (msg : WSMessage) (s : ChatState)
    (h1 : msg.msgType ≠ "transcription") (h2 : msg.msgType ≠ "text_delta")
    (h3 : msg.msgType ≠ "control") :
    handleWSMessage rand msg s = .ok s := by
  unfold handleWSMessage
  split <;> simp_all

theorem handleRealtimeStep_unknown (argsOk : Bool) (toolResult : String)
    (m : RtMessage) (s : RtState)
    (h1 : m.rtType ≠ "session.created")
    (h2 : m.rtType ≠ "response.audio_transcript.delta")
    (h3 : m.rtType ≠ "response.audio.delta")
    (h4 : m.rtType ≠ "input_audio_buffer.speech_started")
    (h5 : m.rtType ≠ "conversation.item.input_audio_transcription.completed")
    (h6 : m.rtType ≠ "response.done")
    (h7 : m.rtType ≠ "response.output_item.done") :
    handleRealtimeStep argsOk toolResult m s = .ok s := by
  unfold handleRealtimeStep
  split <;> simp_all

theorem handleWSMessage_delta_known (rand i d : String) (hi : i ≠ "")
    (s : ChatState) (e : Message) (h : mapGet s.messageMap i = some e) :
    handleWSMessage rand (deltaFrame i d) s =
      .ok { s with
              messageMap := mapSet s.messageMap i ⟨e.id, e.msgType, e.content ++ d⟩,
              messagesView :=
                viewOf (mapSet s.messageMap i ⟨e.id, e.msgType, e.content ++ d⟩) } := by
  simp [handleWSMessage, deltaFrame, strTruthy, jsStr, hi, h]

theorem handleWSMessage_delta_absent (rand i d : String) (hi : i ≠ "")
    (s : ChatState) (h : mapGet s.messageMap i = none) :
    handleWSMessage rand (deltaFrame i d) s =
      .ok { s with
              messageMap := mapSet s.messageMap i ⟨i, "assistant", d⟩,
              messagesView := viewOf (mapSet s.messageMap i ⟨i, "assistant", d⟩) } := by
  simp [handleWSMessage, deltaFrame, strTruthy, jsStr, hi, h]

theorem processFrames_delta_fold (rand i : String) (hi : i ≠ "") :
    ∀ (ds : List String) (s : ChatState) (e : Message),
      mapGet s.messageMap i = some e →
      ∃ s1, processFrames rand (ds.map (deltaFrame i)) s = .ok s1 ∧
        mapGet s1.messageMap i =
          some ⟨e.id, e.msgType, ds.foldl (fun a d => a ++ d) e.content⟩
  | [], s, e, h => ⟨s, rfl, by simpa using h⟩
  | d :: ds, s, e, h => by
    have step := handleWSMessage_delta_known rand i d hi s e h
    have hnew := mapGet_mapSet_self s.messageMap i ⟨e.id, e.msgType, e.content ++ d⟩
    obtain ⟨s1, hrun, hget⟩ := processFrames_delta_fold rand i hi ds
      { s with
          messageMap := mapSet s.messageMap i ⟨e.id, e.msgType, e.content ++ d⟩,
          messagesView :=
            viewOf (mapSet s.messageMap i ⟨e.id, e.msgType, e.content ++ d⟩) }
      ⟨e.id, e.msgType, e.content ++ d⟩ (by simpa using hnew)
    refine ⟨s1, ?_, ?_⟩
    · simp only [List.map_cons, processFrames, step]
      exact hrun
    · simpa using hget

/-! ## The claims -/

/-- C1: for every sequence of inbound `text_delta` frames sharing one
message id, processed in arrival order by the session message reducer
`handleWSMessage`, the resulting message content for that id equals the
concatenation of the delta payloads in arrival order; in particular the
frames `[text_delta(a,"Hel"), text_delta(a,"lo"), turn_done]` yield
exactly one message, with content `"Hello"`. -/
theorem C1_delta_reassembly :
    (∀ (rand i : String) (ds : List String) (s0 : ChatState),
        i ≠ "" → mapGet s0.messageMap i = none → ds ≠ [] →
        ∃ s1, processFrames rand (ds.map (deltaFrame i)) s0 = .ok s1 ∧
          mapGet s1.messageMap i =
            some ⟨i, "assistant", ds.foldl (fun a d => a ++ d) ""⟩) ∧
    (∃ s1,
        processFrames "r" [deltaFrame "a" "Hel", deltaFrame "a" "lo", textDoneFrame]
          emptyChat = .ok s1 ∧
        s1.messageMap = [("a", ⟨"a", "assistant", "Hello"⟩)]) := by
  constructor
  · intro rand i ds s0 hi habs hne
    match ds with
    | d :: ds =>
      have step := handleWSMessage_delta_absent rand i d hi s0 habs
      have hnew := mapGet_mapSet_self s0.messageMap i ⟨i, "assistant", d⟩
      obtain ⟨s1, hrun, hget⟩ := processFrames_delta_fold rand i hi ds
        { s0 with
            messageMap := mapSet s0.messageMap i ⟨i, "assistant", d⟩,
            messagesView := viewOf (mapSet s0.messageMap i ⟨i, "assistant", d⟩) }
        ⟨i, "assistant", d⟩ (by simpa using hnew)
      refine ⟨s1, ?_, ?_⟩
      · simp only [List.map_cons, processFrames, step]
        exact hrun
      · have hd : ("" : String) ++ d = d := rfl
        simpa [hd] using hget
  · exact ⟨_, rfl, rfl⟩

/-- Witness for C1 at a concrete input. -/
theorem C1_delta_reassembly_witness :
    ∃ s1, processFrames "" (["x", "y"].map (deltaFrame "m1")) emptyChat = .ok s1 ∧
      mapGet s1.messageMap "m1" =
        some ⟨"m1", "assistant", ["x", "y"].foldl (fun a d => a ++ d) ""⟩ :=
  C1_delta_reassembly.1 "" "m1" ["x", "y"] emptyChat (by decide) rfl (by decide)

/-- C4 counterexample: the reducer applies a `text_delta` that arrives
after the done frame for the same id.  From the empty state, the frames
`[text_delta(a,"x"), done, text_delta(a,"y")]` leave content `"xy"`,
whereas the claim demands the content stay `"x"` (the value at the time
of the done frame). -/
theorem C4_done_then_delta_counterexample :
    processFrames "" [deltaFrame "a" "x", textDoneFrame] emptyChat =
      .ok ⟨[("a", ⟨"a", "assistant", "x"⟩)], [⟨"a", "assistant", "x"⟩],
           none, none, none⟩ ∧
    processFrames "" [deltaFrame "a" "x", textDoneFrame, deltaFrame "a" "y"]
        emptyChat =
      .ok ⟨[("a", ⟨"a", "assistant", "xy"⟩)], [⟨"a", "assistant", "xy"⟩],
           none, none, none⟩ ∧
    ("xy" : String) ≠ "x" :=
  ⟨rfl, rfl, by decide⟩

/-- C4 amended: the reducer has no `complete` state at all — the done
frame (`control`/`text_done`) leaves the state entirely unchanged (it is
not even logged), so a delta frame arriving after a done for the same id
is applied exactly as any other delta. -/
theorem C4_done_is_noop (rand : String) (msg : WSMessage) (s : ChatState)
    (hc : msg.msgType = "control") (ha : msg.action = some "text_done") :
    handleWSMessage rand msg s = .ok s := by
  simp [handleWSMessage, hc, ha]

/-- Witness for the amended C4. -/
theorem C4_done_is_noop_witness :
    handleWSMessage "" textDoneFrame emptyChat = .ok emptyChat :=
  C4_done_is_noop "" textDoneFrame emptyChat rfl rfl

/-- C9: a `text_delta` or `transcription` frame whose id field is absent
leaves the reducer state — in particular the message map — entirely
unchanged: no message is created and no content is modified. -/
theorem C9_absent_id_noop (rand : String) (msg : WSMessage) (s : ChatState)
    (ht : msg.msgType = "text_delta" ∨ msg.msgType = "transcription")
    (hid : msg.id = none) :
    handleWSMessage rand msg s = .ok s := by
  cases ht with
  | inl h => simp [handleWSMessage, h, hid, strTruthy]
  | inr h => simp [handleWSMessage, h, hid, strTruthy]

/-- Witness for C9. -/
theorem C9_absent_id_noop_witness :
    handleWSMessage "" ⟨none, "text_delta", some "x", none, none, none⟩ emptyChat =
      .ok emptyChat :=
  C9_absent_id_noop "" ⟨none, "text_delta", some "x", none, none, none⟩ emptyChat
    (Or.inl rfl) rfl

/-- C6: an inbound frame whose type tag is not one of the recognized types
leaves the entire session state unchanged (no message created, modified or
removed, no flag changed, no outbound frame sent) and does not throw, in
both reducers (the chat interface `handleWSMessage` and the main.ts
`handleRealtimeMessages` loop body); the frame is only logged. -/
theorem C6_unknown_type_noop :
    (∀ (rand : String) (msg : WSMessage) (s : ChatState),
        msg.msgType ∉ (["transcription", "text_delta", "control"] : List String) →
        handleWSMessage rand msg s = .ok s) ∧
    (∀ (argsOk : Bool) (toolResult : String) (m : RtMessage) (s : RtState),
        m.rtType ∉
          (["session.created", "response.audio_transcript.delta",
            "response.audio.delta", "input_audio_buffer.speech_started",
            "conversation.item.input_audio_transcription.completed",
            "response.done", "response.output_item.done"] : List String) →
        handleRealtimeStep argsOk toolResult m s = .ok s) := by
  constructor
  · intro rand msg s h
    simp only [List.mem_cons, List.not_mem_nil, or_false, not_or] at h
    exact handleWSMessage_unknown rand msg s h.1 h.2.1 h.2.2
  · intro argsOk toolResult m s h
    simp only [List.mem_cons, List.not_mem_nil, or_false, not_or] at h
    exact handleRealtimeStep_unknown argsOk toolResult m s h.1 h.2.1 h.2.2.1
      h.2.2.2.1 h.2.2.2.2.1 h.2.2.2.2.2.1 h.2.2.2.2.2.2

/-- Witness for C6 at the unknown tag `"bogus"`. -/
theorem C6_unknown_type_noop_witness :
    handleWSMessage "" ⟨none, "bogus", none, none, none, none⟩ emptyChat =
        .ok emptyChat ∧
    handleRealtimeStep false "" ⟨"bogus", "", "", none⟩
        ⟨false, [], [], none, ⟨[]⟩, InputState.ReadyToStart⟩ =
      .ok ⟨false, [], [], none, ⟨[]⟩, InputState.ReadyToStart⟩ :=
  ⟨C6_unknown_type_noop.1 "" ⟨none, "bogus", none, none, none, none⟩ emptyChat
      (by decide),
   C6_unknown_type_noop.2 false "" ⟨"bogus", "", "", none⟩
      ⟨false, [], [], none, ⟨[]⟩, InputState.ReadyToStart⟩ (by decide)⟩

/-- C3 counterexample: the "fresh id independent of all existing ids" part
fails.  The id is `"userMessage" + Math.random()`; when the drawn value
collides with an existing key (here `"userMessage0.5"`), `Map.set`
overwrites the existing message in place: no new message is created (the
map keeps a single entry) and the preexisting assistant message is
destroyed. -/
theorem C3_speech_started_counterexample :
    handleWSMessage "0.5" speechStartedFrame
        ⟨[("userMessage0.5", ⟨"userMessage0.5", "assistant", "hi"⟩)],
         [⟨"userMessage0.5", "assistant", "hi"⟩], none, none, some ⟨[[1]]⟩⟩ =
      .ok ⟨[("userMessage0.5", ⟨"userMessage0.5", "user", "..."⟩)],
           [⟨"userMessage0.5", "user", "..."⟩], some "userMessage0.5", none,
           some ⟨[]⟩⟩ ∧
    (⟨[("userMessage0.5", ⟨"userMessage0.5", "user", "..."⟩)],
      [⟨"userMessage0.5", "user", "..."⟩], some "userMessage0.5", none,
      some ⟨[]⟩⟩ : ChatState).messageMap.length =
      (⟨[("userMessage0.5", ⟨"userMessage0.5", "assistant", "hi"⟩)],
        [⟨"userMessage0.5", "assistant", "hi"⟩], none, none,
        some ⟨[[1]]⟩⟩ : ChatState).messageMap.length :=
  ⟨rfl, rfl⟩

/-- C3 amended: on a `speech_started` control frame the reducer always
invokes `Player.clear` on an active player (so the playback queue is empty
afterwards) and stores a user-role message with placeholder content
`"..."` under the id `"userMessage" + r` where `r` is the `Math.random()`
draw; when that id is not already a key of the map this is a genuinely new
message appended after all existing ones, but the code does not guarantee
the freshness (a colliding draw overwrites, see the counterexample). -/
theorem C3_speech_started_barge_in (rand : String) (msg : WSMessage)
    (s : ChatState) (hc : msg.msgType = "control")
    (ha : msg.action = some "speech_started") :
    ∃ s1, handleWSMessage rand msg s = .ok s1 ∧
      s1.player = s.player.map Player.clear ∧
      (s.player.isSome → s1.player = some ⟨[]⟩) ∧
      s1.currentUserMessage = some ("userMessage" ++ rand) ∧
      mapGet s1.messageMap ("userMessage" ++ rand) =
        some ⟨"userMessage" ++ rand, "user", "..."⟩ ∧
      (mapGet s.messageMap ("userMessage" ++ rand) = none →
        s1.messageMap = s.messageMap ++
          [("userMessage" ++ rand, ⟨"userMessage" ++ rand, "user", "..."⟩)]) := by
  have hrun : handleWSMessage rand msg s =
      .ok { s with
              player := s.player.map Player.clear,
              currentUserMessage := some ("userMessage" ++ rand),
              messageMap := mapSet s.messageMap ("userMessage" ++ rand)
                ⟨"userMessage" ++ rand, "user", "..."⟩,
              messagesView := viewOf (mapSet s.messageMap ("userMessage" ++ rand)
                ⟨"userMessage" ++ rand, "user", "..."⟩) } := by
    simp [handleWSMessage, hc, ha]
  refine ⟨_, hrun, rfl, ?_, rfl, ?_, ?_⟩
  · intro hp
    obtain ⟨p, hp⟩ := Option.isSome_iff_exists.mp hp
    simp [hp, Player.clear]
  · exact mapGet_mapSet_self s.messageMap ("userMessage" ++ rand)
      ⟨"userMessage" ++ rand, "user", "..."⟩
  · intro habs
    simp [mapSet, any_eq_false_of_mapGet_none ("userMessage" ++ rand)
      s.messageMap habs]

/-- Witness for the amended C3. -/
theorem C3_speech_started_barge_in_witness :
    ∃ s1, handleWSMessage "0.1" speechStartedFrame
        ⟨[], [], none, none, some ⟨[[3]]⟩⟩ = .ok s1 ∧
      s1.player = (some ⟨[[3]]⟩ : Option Player).map Player.clear ∧
      ((some ⟨[[3]]⟩ : Option Player).isSome → s1.player = some ⟨[]⟩) ∧
      s1.currentUserMessage = some ("userMessage" ++ "0.1") ∧
      mapGet s1.messageMap ("userMessage" ++ "0.1") =
        some ⟨"userMessage" ++ "0.1", "user", "..."⟩ ∧
      (mapGet ([] : List (String × Message)) ("userMessage" ++ "0.1") = none →
        s1.messageMap = [] ++
          [("userMessage" ++ "0.1", ⟨"userMessage" ++ "0.1", "user", "..."⟩)]) :=
  C3_speech_started_barge_in "0.1" speechStartedFrame
    ⟨[], [], none, none, some ⟨[[3]]⟩⟩ rfl rfl

/-- C8 counterexample: a `transcription` frame with an id, arriving before
any `speech_started` frame has created a current user message, makes the
reducer throw (`currentUserMessage.current!.content = ...` on an
`undefined` ref), and `receiveLoop` has no handler for it: the claim that
processing never throws an uncaught error is false. -/
theorem C8_transcription_throws_counterexample :
    handleWSMessage "" (transcriptionFrame "t1" "hello") emptyChat =
      .error "TypeError: cannot set content of undefined" :=
  rfl

/-- C8 amended: processing a frame can throw, and the receive loop does
not catch it — a `transcription` frame with a truthy id before any
current user message exists throws a `TypeError` (see the
counterexample), as does a `control`/`connected` frame carrying a
greeting before the connecting status message exists (and, outside this
model, `JSON.parse` on non-JSON text data).  These are the only throwing
paths: whenever a current user message exists when a transcription
arrives and a connecting message exists when a connected greeting
arrives, the reducer does not throw. -/
theorem C8_no_throw_characterization (rand : String) (msg : WSMessage)
    (s : ChatState)
    (h1 : msg.msgType = "transcription" → strTruthy msg.id = true →
      s.currentUserMessage.isSome)
    (h2 : msg.msgType = "control" → msg.action = some "connected" →
      strTruthy msg.greeting = true → s.currentConnectingMessage.isSome) :
    ∃ s1, handleWSMessage rand msg s = .ok s1 := by
  by_cases ht : msg.msgType = "transcription"
  · cases hid : strTruthy msg.id
    · exact ⟨s, by simp [handleWSMessage, ht, hid]⟩
    · obtain ⟨cid, hcid⟩ := Option.isSome_iff_exists.mp (h1 ht hid)
      exact ⟨_, by simp [handleWSMessage, ht, hid, hcid]; rfl⟩
  · by_cases hd : msg.msgType = "text_delta"
    · cases hid : strTruthy msg.id
      · exact ⟨s, by simp [handleWSMessage, hd, hid]⟩
      · cases hm : mapGet s.messageMap (jsStr msg.id)
        · exact ⟨_, by simp [handleWSMessage, hd, hid, hm]; rfl⟩
        · exact ⟨_, by simp [handleWSMessage, hd, hid, hm]; rfl⟩
    · by_cases hcon : msg.msgType = "control"
      · cases hg : (msg.action == some "connected") && strTruthy msg.greeting
        · cases hsp : msg.action == some "speech_started"
          · exact ⟨s, by simp [handleWSMessage, hcon, hg, hsp]⟩
          · exact ⟨_, by simp [handleWSMessage, hcon, hg, hsp]; rfl⟩
        · have hact : msg.action = some "connected" := by
            have := (Bool.and_eq_true _ _).mp hg
            simpa using this.1
          have hgt : strTruthy msg.greeting = true := by
            have := (Bool.and_eq_true _ _).mp hg
            exact this.2
          obtain ⟨cid, hcid⟩ :=
            Option.isSome_iff_exists.mp (h2 hcon hact hgt)
          exact ⟨_, by simp [handleWSMessage, hcon, hg, hcid]; rfl⟩
      · exact ⟨s, handleWSMessage_unknown rand msg s ht hd hcon⟩

/-- Witness for the amended C8. -/
theorem C8_no_throw_characterization_witness :
    ∃ s1, handleWSMessage "" (transcriptionFrame "t1" "hello")
        ⟨[("u1", ⟨"u1", "user", "..."⟩)], [⟨"u1", "user", "..."⟩],
         some "u1", none, none⟩ = .ok s1 :=
  C8_no_throw_characterization "" (transcriptionFrame "t1" "hello")
    ⟨[("u1", ⟨"u1", "user", "..."⟩)], [⟨"u1", "user", "..."⟩],
     some "u1", none, none⟩
    (fun _ _ => rfl) (fun _ hc _ => by simp [transcriptionFrame] at hc)

/-- C10: a `text_delta` frame with id `x` leaves every message whose id
differs from `x` untouched (same entry under its key), and no
frame-processing operation ever removes a message from the map (present
keys stay present); only `disconnect`/session reset clears the map. -/
theorem C10_delta_isolation :
    (∀ (rand : String) (msg : WSMessage) (s s1 : ChatState) (x k : String),
        msg.msgType = "text_delta" → msg.id = some x →
        handleWSMessage rand msg s = .ok s1 → k ≠ x →
        mapGet s1.messageMap k = mapGet s.messageMap k) ∧
    (∀ (rand : String) (msg : WSMessage) (s s1 : ChatState) (k : String),
        handleWSMessage rand msg s = .ok s1 →
        (mapGet s.messageMap k).isSome → (mapGet s1.messageMap k).isSome) := by
  constructor
  · intro rand msg s s1 x k ht hid hrun hkx
    by_cases hx : x = ""
    · have step : handleWSMessage rand msg s = .ok s := by
        simp [handleWSMessage, ht, hid, strTruthy, hx]
      rw [step] at hrun
      cases hrun
      rfl
    · cases hm : mapGet s.messageMap x with
      | none =>
        have step : handleWSMessage rand msg s = .ok
            { s with
                messageMap :=
                  mapSet s.messageMap x ⟨x, "assistant", jsStr msg.delta⟩,
                messagesView :=
                  viewOf (mapSet s.messageMap x ⟨x, "assistant", jsStr msg.delta⟩) } := by
          simp [handleWSMessage, ht, hid, strTruthy, hx, jsStr, hm]
        rw [step] at hrun
        cases hrun
        exact mapGet_mapSet_ne s.messageMap x k _ hkx
      | some e =>
        have step : handleWSMessage rand msg s = .ok
            { s with
                messageMap := mapSet s.messageMap x
                  ⟨e.id, e.msgType, e.content ++ jsStr msg.delta⟩,
                messagesView := viewOf (mapSet s.messageMap x
                  ⟨e.id, e.msgType, e.content ++ jsStr msg.delta⟩) } := by
          simp [handleWSMessage, ht, hid, strTruthy, hx, jsStr, hm]
        rw [step] at hrun
        cases hrun
        exact mapGet_mapSet_ne s.messageMap x k _ hkx
  · intro rand msg s s1 k hrun hk
    by_cases ht : msg.msgType = "transcription"
    · cases hid : strTruthy msg.id with
      | false =>
        have step : handleWSMessage rand msg s = .ok s := by
          simp [handleWSMessage, ht, hid]
        rw [step] at hrun
        cases hrun
        exact hk
      | true =>
        cases hcu : s.currentUserMessage with
        | none => simp [handleWSMessage, ht, hid, hcu] at hrun
        | some cid =>
          have step : handleWSMessage rand msg s = .ok
              { s with
                  messageMap := mapSetContent s.messageMap cid (jsStr msg.text),
                  messagesView :=
                    viewOf (mapSetContent s.messageMap cid (jsStr msg.text)) } := by
            simp [handleWSMessage, ht, hid, hcu]
          rw [step] at hrun
          cases hrun
          exact mapGet_mapSetContent_isSome cid (jsStr msg.text) k s.messageMap hk
    · by_cases hd : msg.msgType = "text_delta"
      · cases hid : strTruthy msg.id with
        | false =>
          have step : handleWSMessage rand msg s = .ok s := by
            simp [handleWSMessage, hd, hid]
          rw [step] at hrun
          cases hrun
          exact hk
        | true =>
          cases hm : mapGet s.messageMap (jsStr msg.id) with
          | none =>
            have step : handleWSMessage rand msg s = .ok
                { s with
                    messageMap := mapSet s.messageMap (jsStr msg.id)
                      ⟨jsStr msg.id, "assistant", jsStr msg.delta⟩,
                    messagesView := viewOf (mapSet s.messageMap (jsStr msg.id)
                      ⟨jsStr msg.id, "assistant", jsStr msg.delta⟩) } := by
              simp [handleWSMessage, hd, hid, hm]
            rw [step] at hrun
            cases hrun
            exact mapGet_mapSet_isSome s.messageMap (jsStr msg.id) _ k hk
          | some e =>
            have step : handleWSMessage rand msg s = .ok
                { s with
                    messageMap := mapSet s.messageMap (jsStr msg.id)
                      ⟨e.id, e.msgType, e.content ++ jsStr msg.delta⟩,
                    messagesView := viewOf (mapSet s.messageMap (jsStr msg.id)
                      ⟨e.id, e.msgType, e.content ++ jsStr msg.delta⟩) } := by
              simp [handleWSMessage, hd, hid, hm]
            rw [step] at hrun
            cases hrun
            exact mapGet_mapSet_isSome s.messageMap (jsStr msg.id) _ k hk
      · by_cases hcon : msg.msgType = "control"
        · cases hg : (msg.action == some "connected") && strTruthy msg.greeting with
          | true =>
            cases hcc : s.currentConnectingMessage with
            | none => simp [handleWSMessage, hcon, hg, hcc] at hrun
            | some cid =>
              have step : handleWSMessage rand msg s = .ok
                  { s with
                      messageMap :=
                        mapSetContent s.messageMap cid (jsStr msg.greeting),
                      messagesView := viewOf
                        (mapSetContent s.messageMap cid (jsStr msg.greeting)) } := by
                simp [handleWSMessage, hcon, hg, hcc]
              rw [step] at hrun
              cases hrun
              exact mapGet_mapSetContent_isSome cid (jsStr msg.greeting) k
                s.messageMap hk
          | false =>
            cases hsp : msg.action == some "speech_started" with
            | false =>
              have step : handleWSMessage rand msg s = .ok s := by
                simp [handleWSMessage, hcon, hg, hsp]
              rw [step] at hrun
              cases hrun
              exact hk
            | true =>
              have step : handleWSMessage rand msg s = .ok
                  { s with
                      player := s.player.map Player.clear,
                      currentUserMessage := some ("userMessage" ++ rand),
                      messageMap := mapSet s.messageMap ("userMessage" ++ rand)
                        ⟨"userMessage" ++ rand, "user", "..."⟩,
                      messagesView := viewOf
                        (mapSet s.messageMap ("userMessage" ++ rand)
                          ⟨"userMessage" ++ rand, "user", "..."⟩) } := by
                simp [handleWSMessage, hcon, hg, hsp]
              rw [step] at hrun
              cases hrun
              exact mapGet_mapSet_isSome s.messageMap ("userMessage" ++ rand) _ k hk
        · have step := handleWSMessage_unknown rand msg s ht hd hcon
          rw [step] at hrun
          cases hrun
          exact hk

/-- Witness for C10. -/
theorem C10_delta_isolation_witness :
    mapGet (⟨[("b", ⟨"b", "assistant", "z"⟩), ("a", ⟨"a", "assistant", "x"⟩)],
        [⟨"b", "assistant", "z"⟩, ⟨"a", "assistant", "x"⟩], none, none,
        none⟩ : ChatState).messageMap "b" =
      mapGet [("b", ⟨"b", "assistant", "z"⟩)] "b" ∧
    (mapGet (⟨[("b", ⟨"b", "assistant", "z"⟩), ("a", ⟨"a", "assistant", "x"⟩)],
        [⟨"b", "assistant", "z"⟩, ⟨"a", "assistant", "x"⟩], none, none,
        none⟩ : ChatState).messageMap "b").isSome :=
  ⟨C10_delta_isolation.1 "" (deltaFrame "a" "x")
      ⟨[("b", ⟨"b", "assistant", "z"⟩)], [⟨"b", "assistant", "z"⟩],
       none, none, none⟩
      ⟨[("b", ⟨"b", "assistant", "z"⟩), ("a", ⟨"a", "assistant", "x"⟩)],
       [⟨"b", "assistant", "z"⟩, ⟨"a", "assistant", "x"⟩], none, none, none⟩
      "a" "b" rfl rfl rfl (by decide),
   C10_delta_isolation.2 "" (deltaFrame "a" "x")
      ⟨[("b", ⟨"b", "assistant", "z"⟩)], [⟨"b", "assistant", "z"⟩],
       none, none, none⟩
      ⟨[("b", ⟨"b", "assistant", "z"⟩), ("a", ⟨"a", "assistant", "x"⟩)],
       [⟨"b", "assistant", "z"⟩, ⟨"a", "assistant", "x"⟩], none, none, none⟩
      "b" rfl (by decide)⟩

/-- C7: `disconnect` is idempotent and safe to call twice: it is a total
function (no error; the transport `close()` and audio `clear()`/`stop()`
it calls are modelled from spec sections 4.1-4.3 as always safe), the
transport client handle is null after each of the two calls, and the
state after the second call equals the state after the first. -/
theorem C7_disconnect_idempotent (s : SessionState) :
    (disconnect s).ws = none ∧ (disconnect (disconnect s)).ws = none ∧
    disconnect (disconnect s) = disconnect s := by
  refine ⟨?_, ?_, ?_⟩
  · simp [disconnect]
  · simp [disconnect]
  · cases hr : s.isRecording <;> cases hrec : s.recorder <;>
      cases hp : s.chat.player <;>
      simp [disconnect, handleAudioRecord, Player.clear, hr, hrec, hp]

/-- C2: a `response.output_item.done` frame carrying a `function_call`
item sets the pending-function-call flag; the next `response.done` then
sends exactly one `response.create` frame and clears the flag; a further
`response.done` with the flag already clear sends nothing and changes
nothing. -/
theorem C2_function_call_resume (s : RtState) (item : RtItem) (argsOk : Bool)
    (toolResult : String) (hty : item.itemType = "function_call") :
    (handleFunctionCall argsOk toolResult item s).sawFunctionCall = true ∧
    (handleResponseDone (handleFunctionCall argsOk toolResult item s)).sent =
      (handleFunctionCall argsOk toolResult item s).sent ++
        [RtOut.responseCreate] ∧
    (handleResponseDone
        (handleFunctionCall argsOk toolResult item s)).sawFunctionCall = false ∧
    handleResponseDone (handleResponseDone
        (handleFunctionCall argsOk toolResult item s)) =
      handleResponseDone (handleFunctionCall argsOk toolResult item s) ∧
    (∀ t : RtState, t.sawFunctionCall = false → handleResponseDone t = t) := by
  refine ⟨?_, ?_, ?_, ?_, ?_⟩
  · cases argsOk <;> simp [handleFunctionCall, handleResponseDone, hty]
  · cases argsOk <;> simp [handleFunctionCall, handleResponseDone, hty]
  · cases argsOk <;> simp [handleFunctionCall, handleResponseDone, hty]
  · cases argsOk <;> simp [handleFunctionCall, handleResponseDone, hty]
  · intro t htf
    simp [handleResponseDone, htf]

/-- Witness for C2. -/
theorem C2_function_call_resume_witness :
    (handleFunctionCall true "{}" ⟨"function_call", "call1", "{}"⟩
        ⟨false, [], [], none, ⟨[]⟩, InputState.ReadyToStop⟩).sawFunctionCall
      = true ∧
    (handleResponseDone (handleFunctionCall true "{}"
        ⟨"function_call", "call1", "{}"⟩
        ⟨false, [], [], none, ⟨[]⟩, InputState.ReadyToStop⟩)).sent =
      (handleFunctionCall true "{}" ⟨"function_call", "call1", "{}"⟩
        ⟨false, [], [], none, ⟨[]⟩, InputState.ReadyToStop⟩).sent ++
        [RtOut.responseCreate] ∧
    (handleResponseDone (handleFunctionCall true "{}"
        ⟨"function_call", "call1", "{}"⟩
        ⟨false, [], [], none, ⟨[]⟩,
         InputState.ReadyToStop⟩)).sawFunctionCall = false ∧
    handleResponseDone (handleResponseDone (handleFunctionCall true "{}"
        ⟨"function_call", "call1", "{}"⟩
        ⟨false, [], [], none, ⟨[]⟩, InputState.ReadyToStop⟩)) =
      handleResponseDone (handleFunctionCall true "{}"
        ⟨"function_call", "call1", "{}"⟩
        ⟨false, [], [], none, ⟨[]⟩, InputState.ReadyToStop⟩) ∧
    (∀ t : RtState, t.sawFunctionCall = false → handleResponseDone t = t) :=
  C2_function_call_resume ⟨false, [], [], none, ⟨[]⟩, InputState.ReadyToStop⟩
    ⟨"function_call", "call1", "{}"⟩ true "{}" rfl

/-! ## Base64 roundtrip and the audio-framing invariant -/

theorem b64val_b64char (n : Nat) (h : n < 64) : b64val (b64char n) = n := by
  have hall : ∀ m : Fin 64, b64val (b64char m.val) = m.val := by decide
  exact hall ⟨n, h⟩

theorem b64char_ne_pad (n : Nat) (h : n < 64) : b64char n ≠ '=' := by
  have hall : ∀ m : Fin 64, b64char m.val ≠ '=' := by decide
  exact hall ⟨n, h⟩

theorem atob_btoa : ∀ l : List Nat, (∀ x ∈ l, x < 256) → atob (btoa l) = l
  | [], _ => rfl
  | [a], h => by
    have ha : a < 256 := h a (by simp)
    have h1 : a / 4 < 64 := by omega
    have h2 : a % 4 * 16 < 64 := by omega
    simp [btoa, atob, b64val_b64char _ h1, b64val_b64char _ h2]
    omega
  | [a, b], h => by
    have ha : a < 256 := h a (by simp)
    have hb : b < 256 := h b (by simp)
    have h1 : a / 4 < 64 := by omega
    have h2 : a % 4 * 16 + b / 16 < 64 := by omega
    have h3 : b % 16 * 4 < 64 := by omega
    simp [btoa, atob, b64val_b64char _ h1, b64val_b64char _ h2,
      b64val_b64char _ h3, b64char_ne_pad _ h3]
    omega
  | a :: b :: c :: rest, h => by
    have ha : a < 256 := h a (by simp)
    have hb : b < 256 := h b (by simp)
    have hc : c < 256 := h c (by simp)
    have ih := atob_btoa rest (fun x hx => h x (by simp [hx]))
    have h1 : a / 4 < 64 := by omega
    have h2 : a % 4 * 16 + b / 16 < 64 := by omega
    have h3 : b % 16 * 4 + c / 64 < 64 := by omega
    have h4 : c % 64 < 64 := by omega
    simp [btoa, atob, b64val_b64char _ h1, b64val_b64char _ h2,
      b64val_b64char _ h3, b64val_b64char _ h4,
      b64char_ne_pad _ h3, b64char_ne_pad _ h4, ih]
    omega

theorem audio_step (s : AudioState) (X d : List Nat)
    (hd : ∀ x ∈ d, x < 256)
    (h1 : (s.sent.map decodedAudio).flatten ++ s.buffer = X)
    (h2 : ∀ f ∈ s.sent, ∃ payload, f = RtOut.inputAudioAppend payload ∧
      (atob payload).length = 4800)
    (h3 : ∀ x ∈ s.buffer, x < 256) :
    ((processAudioRecordingBuffer true s d).sent.map decodedAudio).flatten ++
        (processAudioRecordingBuffer true s d).buffer = X ++ d ∧
    (∀ f ∈ (processAudioRecordingBuffer true s d).sent, ∃ payload,
      f = RtOut.inputAudioAppend payload ∧ (atob payload).length = 4800) ∧
    (∀ x ∈ (processAudioRecordingBuffer true s d).buffer, x < 256) := by
  have hbuf : ∀ x ∈ s.buffer ++ d, x < 256 := by
    intro x hx
    rcases List.mem_append.mp hx with h | h
    · exact h3 x h
    · exact hd x h
  have htake : ∀ x ∈ (s.buffer ++ d).take 4800, x < 256 :=
    fun x hx => hbuf x (List.mem_of_mem_take hx)
  have hround : atob (btoa ((s.buffer ++ d).take 4800)) = (s.buffer ++ d).take 4800 :=
    atob_btoa _ htake
  unfold processAudioRecordingBuffer
  by_cases hlen : 4800 ≤ (s.buffer ++ d).length
  · simp only [hlen, if_true, if_pos]
    have hlen4800 : ((s.buffer ++ d).take 4800).length = 4800 := by
      simp only [List.length_take]
      omega
    refine ⟨?_, ?_, ?_⟩
    · simp only [List.map_append, List.map_cons, List.map_nil, decodedAudio,
        List.flatten_append, List.flatten_cons, List.flatten_nil,
        List.append_nil, hround]
      rw [List.append_assoc, List.take_append_drop, ← List.append_assoc, h1]
    · intro f hf
      rcases List.mem_append.mp hf with h | h
      · exact h2 f h
      · have hf1 : f = RtOut.inputAudioAppend (btoa ((s.buffer ++ d).take 4800)) := by
          simpa using h
        exact ⟨_, hf1, by rw [hround, hlen4800]⟩
    · intro x hx
      exact hbuf x (List.mem_of_mem_drop hx)
  · simp only [hlen, if_false, if_neg]
    refine ⟨?_, h2, hbuf⟩
    rw [← List.append_assoc, h1]

theorem audio_fold : ∀ (ds : List (List Nat)) (s : AudioState) (X : List Nat),
    (∀ d ∈ ds, ∀ x ∈ d, x < 256) →
    (s.sent.map decodedAudio).flatten ++ s.buffer = X →
    (∀ f ∈ s.sent, ∃ payload, f = RtOut.inputAudioAppend payload ∧
      (atob payload).length = 4800) →
    (∀ x ∈ s.buffer, x < 256) →
    ((ds.foldl (processAudioRecordingBuffer true) s).sent.map
        decodedAudio).flatten ++
        (ds.foldl (processAudioRecordingBuffer true) s).buffer = X ++ ds.flatten ∧
    (∀ f ∈ (ds.foldl (processAudioRecordingBuffer true) s).sent, ∃ payload,
      f = RtOut.inputAudioAppend payload ∧ (atob payload).length = 4800)
  | [], s, X, _, h1, h2, _ => by simpa using ⟨h1, h2⟩
  | d :: ds, s, X, hds, h1, h2, h3 => by
    obtain ⟨g1, g2, g3⟩ := audio_step s X d (hds d (by simp)) h1 h2 h3
    have hrec := audio_fold ds (processAudioRecordingBuffer true s d) (X ++ d)
      (fun e he => hds e (by simp [he])) g1 g2 g3
    simpa [List.append_assoc] using hrec

/-- C5: starting from the empty capture buffer, with recording active
throughout, every `input_audio_buffer.append` frame sent by
`processAudioRecordingBuffer` carries a base64 payload that decodes to
exactly 4800 bytes, and the concatenation of the decoded payloads of all
sent frames, in send order, is a prefix of the concatenation of the
capture callback buffers in arrival order (no reordering, duplication or
fabrication of audio bytes).  The byte-range hypothesis states that the
callbacks deliver bytes (`Uint8Array` entries). -/
theorem C5_audio_chunking (ds : List (List Nat))
    (hds : ∀ d ∈ ds, ∀ x ∈ d, x < 256) :
    (∀ f ∈ (ds.foldl (processAudioRecordingBuffer true) ⟨[], []⟩).sent,
      ∃ payload, f = RtOut.inputAudioAppend payload ∧
        (atob payload).length = 4800) ∧
    ((ds.foldl (processAudioRecordingBuffer true) ⟨[], []⟩).sent.map
        decodedAudio).flatten <+: ds.flatten := by
  obtain ⟨h1, h2⟩ := audio_fold ds ⟨[], []⟩ [] hds rfl (by simp) (by simp)
  exact ⟨h2, ⟨(ds.foldl (processAudioRecordingBuffer true) ⟨[], []⟩).buffer,
    by simpa using h1⟩⟩

/-- Witness for C5 on the callback sizes 2400, 2400, 4800. -/
theorem C5_audio_chunking_witness :
    (∀ f ∈ ([List.replicate 2400 7, List.replicate 2400 8,
        List.replicate 4800 9].foldl (processAudioRecordingBuffer true)
          ⟨[], []⟩).sent,
      ∃ payload, f = RtOut.inputAudioAppend payload ∧
        (atob payload).length = 4800) ∧
    (([List.replicate 2400 7, List.replicate 2400 8,
        List.replicate 4800 9].foldl (processAudioRecordingBuffer true)
          ⟨[], []⟩).sent.map decodedAudio).flatten <+:
      [List.replicate 2400 7, List.replicate 2400 8,
        List.replicate 4800 9].flatten :=
  C5_audio_chunking
    [List.replicate 2400 7, List.replicate 2400 8, List.replicate 4800 9]
    (by
      intro d hd x hx
      simp only [List.mem_cons, List.not_mem_nil, or_false] at hd
      rcases hd with rfl | rfl | rfl <;>
        · have := List.eq_of_mem_replicate hx
          omega)

end AoaiRealtime
